import Mathlib

set_option maxHeartbeats 1000000

/-!
Verification of the moksha mint/wallet core (`src/mint/src/mint.rs`,
`src/mint/src/lightning.rs`, `src/wallet/src/wallet.rs`,
`src/wallet/src/client.rs`) against its natural-language specification.

Embedding conventions:
* `u64` values are `Nat`, with the arithmetic edges modelled explicitly
  where they matter.  The `sum_proofs - amount` subtraction in `Mint::split`
  underflows when `amount > sum_proofs` — a panic in a debug build,
  represented by the distinguished error constructor
  `CashuMintError.rustPanic` (at the concrete input exhibited for it a
  release build panics as well, through the subsequent out-of-range slice).
  The `u64` `.sum()` of `Mint::get_amount` is modelled with release-build
  wrapping semantics, reducing modulo `2^64` (a debug build would panic at
  the overflowing addition instead).  Rust slice indexing out of range and
  `Option::unwrap` / `expect` on `None` are panics as well and are modelled
  by the `rustPanic` constructor.
* Stateful code (the mint `Database`, the wallet `LocalStore`) is embedded by
  explicit state passing: each operation takes the store and returns the
  (possibly updated) store next to its `Except` result.
* The Lightning backend and the mint `Client` of the wallet are records of pure
  functions, mirroring the `Lightning` and `Client` traits.
* Secp256k1 points never influence the claims under verification; they are
  modelled as a free algebra (`Point`): an opaque hex literal, closed under
  the scalar multiplication performed by `step2_bob`.
-/

/-- A secp256k1 curve point, modelled as a free algebra: either an opaque
compressed-hex literal or a formal scalar multiple (the only operation the
mint core performs on points). -/
inductive Point where
  | hex (s : String)
  | smul (k : String) (p : Point)
deriving DecidableEq, Repr

/-- Rust `cashurs_core::model::Proof`: a bearer coin (amount, secret, unblinded
signature point, keyset id).  Equality is full structural equality, matching
the derived `PartialEq` used by `Vec::contains` in `check_used_proofs`. -/
structure Proof where
  amount : Nat
  secret : String
  c : Point
  id : String
deriving DecidableEq, Repr

/-- Rust `cashurs_core::model::BlindedMessage`: an output to be signed. -/
structure BlindedMessage where
  amount : Nat
  b : Point
deriving DecidableEq, Repr

/-- Rust `cashurs_core::model::BlindedSignature`: a promise returned by the mint. -/
structure BlindedSignature where
  id : Option String
  amount : Nat
  c : Point
deriving DecidableEq, Repr

/-- The `CashuMintError` variants reachable from the embedded code, plus
`rustPanic`, which stands for a Rust panic (arithmetic underflow in a debug
build, out-of-range slice indexing, `unwrap`/`expect` on `None`). -/
inductive CashuMintError where
  | invoiceNotFound (hash : String)
  | proofAlreadyUsed (msg : String)
  | splitAmountMismatch (msg : String)
  | invoiceAmountTooLow (msg : String)
  | decodeInvoice (pr : String)
  | payInvoice (pr : String)
  | lightningBackend (msg : String)
  | rustPanic (msg : String)
deriving DecidableEq, Repr

/-- Modelled from the spec: `split_amount` (cashurs_core, spec 4.2) — the
binary decomposition of a `u64`, ascending by least-significant bit, with
`split_amount 0 = []`. -/
def splitAmount (n : Nat) : List Nat :=
  (List.range 64).filterMap (fun i => if n.testBit i then some (2 ^ i) else none)

/-- Modelled from the spec: `Proofs::get_total_amount` (cashurs_core) — the
sum of the amounts of the proofs. -/
def proofsTotal (proofs : List Proof) : Nat :=
  (proofs.map (fun p => p.amount)).sum

/-- Rust `Mint::get_amount` (mint.rs:116-121): the `u64` sum of the amounts
of a batch of blinded signatures, with release-build semantics — the
`.sum()` wraps modulo `2^64` (a debug build would panic at the overflowing
addition). -/
def getAmount (blindedSigs : List BlindedSignature) : Nat :=
  (blindedSigs.map (fun s => s.amount)).sum % 2 ^ 64

/-- The exact mathematical sum of the amounts of a signature batch, the
quantity the conservation statement of the spec is about; it coincides with
the wrapped `getAmount` exactly when it is below `2^64`. -/
def sigAmountsSum (blindedSigs : List BlindedSignature) : Nat :=
  (blindedSigs.map (fun s => s.amount)).sum

/-- Whether `a` is one of the keyset denominations `2^i`, `i < 64`
(`MAX_ORDER = 64`, spec 4.3). -/
def isDenomination (a : Nat) : Bool :=
  (List.range 64).any (fun i => a == 2 ^ i)

/-- The mint keyset: one private key per denomination, plus the keyset id. -/
structure MintKeyset where
  privateKeys : Nat → Option String
  keysetId : String

/-- Modelled from the spec: `MintKeyset::new` (cashurs_core, spec 4.3)
derives one private key per denomination `2^i`, `i < 64`, from
`(master_secret, derivation_path)`.  The key bytes are SHA-256 derived; no
claim depends on them, so each derived key is represented by an opaque tag
string that is injective in `(secret, derivation_path, denomination)`. -/
def MintKeyset.new (secret derivationPath : String) : MintKeyset :=
  { privateKeys := fun d =>
      if isDenomination d then
        some (secret ++ "/" ++ derivationPath ++ "#" ++ toString d)
      else none
    keysetId := secret ++ "/" ++ derivationPath }

/-- Modelled from the spec: `Dhke::step2_bob` (cashurs_core, spec 4.1),
`C_ = k * B_`; the scalar multiplication is a free-algebra constructor since
no claim depends on curve arithmetic. -/
def step2Bob (b : Point) (k : String) : Point :=
  Point.smul k b

/-- A decoded Lightning invoice (`lightning_invoice::Invoice`), restricted to
the two accessors the mint uses. -/
structure LNInvoice where
  amountMilliSatoshis : Option Nat
  paymentHash : String
deriving DecidableEq, Repr

/-- Rust `lnbits::PayInvoiceResult`. -/
structure PayInvoiceResult where
  paymentHash : String
deriving DecidableEq, Repr

/-- Rust `lnbits::CreateInvoiceResult`. -/
structure CreateInvoiceResult where
  paymentHash : String
  paymentRequest : String
deriving DecidableEq, Repr

/-- The `Lightning` trait (lightning.rs) as a record of pure functions.
`create_invoice` is total here, matching its infallible use in
`Mint::create_invoice`. -/
structure Lightning where
  isInvoicePaid : String → Except CashuMintError Bool
  createInvoice : Nat → CreateInvoiceResult
  payInvoice : String → Except CashuMintError PayInvoiceResult
  decodeInvoice : String → Except CashuMintError LNInvoice

/-- Rust `model::Invoice` (mint side): a pending invoice record. -/
structure Invoice where
  amount : Nat
  paymentRequest : String
deriving DecidableEq, Repr

/-- The mint `Database` state: the used-proof set (a list, membership is what
matters) and the pending-invoice table. -/
structure MintDb where
  usedProofs : List Proof
  pendingInvoices : List (String × Invoice)
deriving DecidableEq, Repr

/-- Rust `Database::add_used_proofs`: append the proofs to the used set. -/
def MintDb.addUsedProofs (db : MintDb) (proofs : List Proof) : MintDb :=
  { db with usedProofs := db.usedProofs ++ proofs }

/-- The `Mint` struct (mint.rs): Lightning backend and keyset.  The database
is passed explicitly to each operation. -/
structure Mint where
  lightning : Lightning
  keyset : MintKeyset

/-- An abbreviation of the Rust `Debug` rendering of a proof, used in the
`ProofAlreadyUsed` error message. -/
def Proof.debugString (p : Proof) : String :=
  "Proof(" ++ toString p.amount ++ ", " ++ p.secret ++ ", " ++ p.id ++ ")"

/-- Rust `Mint::check_used_proofs` (mint.rs:159-167): scan the used set in order
and fail with `ProofAlreadyUsed` on the first used proof contained in the
proofs of the request. -/
def checkUsedProofs (db : MintDb) (proofs : List Proof) : Except CashuMintError Unit :=
  match db.usedProofs.find? (fun u => decide (u ∈ proofs)) with
  | some u => Except.error (CashuMintError.proofAlreadyUsed u.debugString)
  | none => Except.ok ()

/-- Rust `Mint::create_blinded_signatures` (mint.rs:34-51): sign each blinded
message with the private key of its amount.  The source unwraps the keyset
lookup (`// FIXME unwrap`); a missing denomination is therefore a panic, not
an error value. -/
def Mint.createBlindedSignatures (m : Mint) :
    List BlindedMessage → Except CashuMintError (List BlindedSignature)
  | [] => Except.ok []
  | msg :: rest =>
    match m.keyset.privateKeys msg.amount with
    | none => Except.error (CashuMintError.rustPanic "called Option::unwrap on a None value")
    | some k =>
      match m.createBlindedSignatures rest with
      | Except.error e => Except.error e
      | Except.ok sigs =>
        Except.ok ({ id := some m.keyset.keysetId, amount := msg.amount, c := step2Bob msg.b k } :: sigs)

/-- The `SplitAmountMismatch` message built at mint.rs:105-108. -/
def mismatchMsg (total amountFirst amountSecond : Nat) : String :=
  "Split amount mismatch: " ++ toString total ++ " != " ++
    toString amountFirst ++ " + " ++ toString amountSecond

/-- Rust `Mint::split` (mint.rs:81-114).  Steps, in source order: check the used
set; total the proofs; compute `sum_first = split_amount(sum_proofs - amount).len()`
(the `u64` subtraction underflows — panics — when `amount > sum_proofs`; the
three `TODO check` comments mark validations the source does not perform);
slice the blinded messages at `sum_first` (out-of-range slicing panics); sign
both slices; reject when the signed amounts do not add up to the proof
total; record the proofs as used; return `(second_sigs, first_sigs)`. -/
def Mint.split (m : Mint) (db : MintDb) (amount : Nat) (proofs : List Proof)
    (blindedMessages : List BlindedMessage) :
    Except CashuMintError (List BlindedSignature × List BlindedSignature) × MintDb :=
  match checkUsedProofs db proofs with
  | Except.error e => (Except.error e, db)
  | Except.ok _ =>
    if amount > proofsTotal proofs then
      (Except.error (CashuMintError.rustPanic "attempt to subtract with overflow"), db)
    else if blindedMessages.length < (splitAmount (proofsTotal proofs - amount)).length then
      (Except.error (CashuMintError.rustPanic "range end index out of range for slice"), db)
    else
      match m.createBlindedSignatures
          (blindedMessages.take (splitAmount (proofsTotal proofs - amount)).length) with
      | Except.error e => (Except.error e, db)
      | Except.ok firstSigs =>
        match m.createBlindedSignatures
            (blindedMessages.drop (splitAmount (proofsTotal proofs - amount)).length) with
        | Except.error e => (Except.error e, db)
        | Except.ok secondSigs =>
          if proofsTotal proofs ≠ (getAmount firstSigs + getAmount secondSigs) % 2 ^ 64 then
            (Except.error (CashuMintError.splitAmountMismatch
              (mismatchMsg (proofsTotal proofs) (getAmount firstSigs) (getAmount secondSigs))), db)
          else
            (Except.ok (secondSigs, firstSigs), db.addUsedProofs proofs)

/-- Rust `Mint::melt` (mint.rs:123-157).  Steps, in source order: decode the
invoice; total the proofs; check the used set; read the invoice amount
(`expect` panics when absent); fail `InvoiceAmountTooLow` when
`amount_msat < proofs_amount / 1000` (the comparison as written in the
source); record the proofs as used; pay the invoice; return
`(true, payment_hash, [])`. -/
def Mint.melt (m : Mint) (db : MintDb) (paymentRequest : String) (proofs : List Proof) :
    Except CashuMintError (Bool × String × List BlindedSignature) × MintDb :=
  match m.lightning.decodeInvoice paymentRequest with
  | Except.error e => (Except.error e, db)
  | Except.ok invoice =>
    match checkUsedProofs db proofs with
    | Except.error e => (Except.error e, db)
    | Except.ok _ =>
      match invoice.amountMilliSatoshis with
      | none => (Except.error (CashuMintError.rustPanic "Invoice amount is missing"), db)
      | some amountMsat =>
        if amountMsat < proofsTotal proofs / 1000 then
          (Except.error (CashuMintError.invoiceAmountTooLow
            ("Invoice amount is too low: " ++ toString amountMsat)), db)
        else
          match m.lightning.payInvoice paymentRequest with
          | Except.error e => (Except.error e, db.addUsedProofs proofs)
          | Except.ok result => (Except.ok (true, result.paymentHash, []), db.addUsedProofs proofs)

/-- Rust `Mint::mint_tokens` (mint.rs:61-79): look up the pending invoice, poll
payment status (returning `[]` when unpaid), delete the pending record, then
sign the outputs. -/
def Mint.mintTokens (m : Mint) (db : MintDb) (invoiceHash : String)
    (outputs : List BlindedMessage) :
    Except CashuMintError (List BlindedSignature) × MintDb :=
  match db.pendingInvoices.find? (fun kv => kv.1 == invoiceHash) with
  | none => (Except.error (CashuMintError.invoiceNotFound invoiceHash), db)
  | some kv =>
    match m.lightning.isInvoicePaid kv.2.paymentRequest with
    | Except.error e => (Except.error e, db)
    | Except.ok false => (Except.ok [], db)
    | Except.ok true =>
      match m.createBlindedSignatures outputs with
      | Except.error e =>
        (Except.error e,
          { db with pendingInvoices := db.pendingInvoices.filter (fun x => x.1 != invoiceHash) })
      | Except.ok sigs =>
        (Except.ok sigs,
          { db with pendingInvoices := db.pendingInvoices.filter (fun x => x.1 != invoiceHash) })

/-- The `CashuWalletError` variants reachable from the embedded wallet code. -/
inductive CashuWalletError where
  | notEnoughTokens
  | invalidProofs
  | invoiceNotPaidYet (code : Nat) (msg : String)
  | mintError (msg : String)
  | unexpectedResponse (msg : String)
deriving DecidableEq, Repr

/-- Rust `cashurs_core::model::PostMeltResponse`: the melt reply of the mint. -/
structure PostMeltResponse where
  paid : Bool
  preimage : String
  change : List BlindedSignature
deriving DecidableEq, Repr

/-- The mint `Client` trait of the wallet (client.rs), restricted to the endpoint
the verified wallet operations use, as a record of pure functions. -/
structure Client where
  postMeltTokens :
    List Proof → String → List BlindedMessage → Except CashuWalletError PostMeltResponse

/-- The `Wallet` struct (wallet.rs), restricted to the fields the verified
operations use.  The localstore is passed explicitly as a list of proofs. -/
structure Wallet where
  client : Client

/-- Modelled from the spec: `LocalStore::delete_proofs` removes the given
proofs from the store. -/
def deleteProofs (store proofs : List Proof) : List Proof :=
  store.filter (fun p => decide (p ∉ proofs))

/-- Rust `Wallet::melt_token` (wallet.rs:163-194): post the melt request to the
mint, then — on any transport-level success, regardless of the `paid` field —
delete the consumed proofs from the localstore and return the response. -/
def Wallet.meltToken (w : Wallet) (store : List Proof) (pr : String)
    (_invoiceAmount : Nat) (proofs : List Proof) :
    Except CashuWalletError PostMeltResponse × List Proof :=
  match w.client.postMeltTokens proofs pr [] with
  | Except.error e => (Except.error e, store)
  | Except.ok meltResponse => (Except.ok meltResponse, deleteProofs store proofs)

/-- The insertion step of the ascending wallet sort by amount
(`all_proofs.sort_by(|a, b| a.amount.cmp(&b.amount))`, wallet.rs:331). -/
def orderedInsertAmount (p : Proof) : List Proof → List Proof
  | [] => [p]
  | q :: rest =>
    if p.amount ≤ q.amount then p :: q :: rest else q :: orderedInsertAmount p rest

/-- Stable ascending sort by amount, embedding the stable Rust `sort_by` on
the `amount` key. -/
def sortByAmount : List Proof → List Proof
  | [] => []
  | p :: rest => orderedInsertAmount p (sortByAmount rest)

/-- The selection loop of `Wallet::get_proofs_for_amount` (wallet.rs:336-344)
run over the proofs in descending order (the source pops from the back of
the ascending list): keep taking while the running total is below `amount`. -/
def selectProofsLoop (amount : Nat) : List Proof → Nat → List Proof
  | [], _ => []
  | p :: rest, selectedAmount =>
    if selectedAmount < amount then p :: selectProofsLoop amount rest (selectedAmount + p.amount)
    else []

/-- Rust `Wallet::get_proofs_for_amount` (wallet.rs:323-347): fail
`NotEnoughTokens` when `amount` exceeds the balance; otherwise sort the
proofs ascending by amount and pop from the largest end until the running
sum reaches `amount`. -/
def getProofsForAmount (allProofs : List Proof) (amount : Nat) :
    Except CashuWalletError (List Proof) :=
  if amount > proofsTotal allProofs then Except.error CashuWalletError.notEnoughTokens
  else Except.ok (selectProofsLoop amount (sortByAmount allProofs).reverse 0)

/-- Concrete fixtures used by the witnesses and counterexample evaluations. -/
def unitLightning : Lightning :=
  { isInvoicePaid := fun _ => Except.ok true
    createInvoice := fun _ => { paymentHash := "h", paymentRequest := "pr" }
    payInvoice := fun _ => Except.ok { paymentHash := "ph" }
    decodeInvoice := fun _ =>
      Except.ok { amountMilliSatoshis := some 21000, paymentHash := "ph" } }

def testKeyset : MintKeyset :=
  MintKeyset.new "TEST_PRIVATE_KEY" "0/0/0/0"

def testMint : Mint :=
  { lightning := unitLightning, keyset := testKeyset }

def emptyDb : MintDb :=
  { usedProofs := [], pendingInvoices := [] }

def proofA : Proof :=
  { amount := 1, secret := "sA", c := Point.hex "cA", id := "kid" }

def proofB : Proof :=
  { amount := 2, secret := "sB", c := Point.hex "cB", id := "kid" }

def msg1 : BlindedMessage :=
  { amount := 1, b := Point.hex "b1" }

def msg2 : BlindedMessage :=
  { amount := 2, b := Point.hex "b2" }

/-- The signature `testMint` produces for `msg1`. -/
def sigA : BlindedSignature :=
  { id := some "TEST_PRIVATE_KEY/0/0/0/0"
    amount := 1
    c := Point.smul "TEST_PRIVATE_KEY/0/0/0/0#1" (Point.hex "b1") }

/-- If some proof is both in the used set and in the request, the
double-spend check fails with `ProofAlreadyUsed`. -/
theorem checkUsedProofs_hit (db : MintDb) (ps : List Proof) (p : Proof)
    (hdb : p ∈ db.usedProofs) (hps : p ∈ ps) :
    ∃ msg, checkUsedProofs db ps = Except.error (CashuMintError.proofAlreadyUsed msg) := by
  unfold checkUsedProofs
  cases hfind : db.usedProofs.find? (fun u => decide (u ∈ ps)) with
  | none =>
    exfalso
    have hnone := List.find?_eq_none.mp hfind p hdb
    simp at hnone
    exact hnone hps
  | some u => exact ⟨u.debugString, rfl⟩

/-- Rust `split` leaves the database unchanged or appends the input proofs. -/
theorem Mint.split_state_cases (m : Mint) (db : MintDb) (a : Nat) (ps : List Proof)
    (msgs : List BlindedMessage) :
    (m.split db a ps msgs).2 = db ∨ (m.split db a ps msgs).2 = db.addUsedProofs ps := by
  unfold Mint.split
  repeat' split
  all_goals simp

/-- Rust `melt` leaves the database unchanged or appends the input proofs. -/
theorem Mint.melt_state_cases (m : Mint) (db : MintDb) (pr : String) (ps : List Proof) :
    (m.melt db pr ps).2 = db ∨ (m.melt db pr ps).2 = db.addUsedProofs ps := by
  unfold Mint.melt
  repeat' split
  all_goals simp

/-- Rust `mint_tokens` never touches the used-proof set. -/
theorem Mint.mintTokens_usedProofs (m : Mint) (db : MintDb) (h : String)
    (outs : List BlindedMessage) :
    (m.mintTokens db h outs).2.usedProofs = db.usedProofs := by
  unfold Mint.mintTokens
  repeat' split
  all_goals rfl

/-- One mint request: the database transition of a `split`, `melt` or
`mint_tokens` call with arbitrary arguments. -/
inductive MintStep (m : Mint) : MintDb → MintDb → Prop where
  | split (db : MintDb) (amount : Nat) (proofs : List Proof) (msgs : List BlindedMessage) :
      MintStep m db (m.split db amount proofs msgs).2
  | melt (db : MintDb) (pr : String) (proofs : List Proof) :
      MintStep m db (m.melt db pr proofs).2
  | mintTokens (db : MintDb) (hash : String) (outputs : List BlindedMessage) :
      MintStep m db (m.mintTokens db hash outputs).2

/-- Reachability by any finite sequence of mint requests. -/
def MintReachable (m : Mint) : MintDb → MintDb → Prop :=
  Relation.ReflTransGen (MintStep m)

/-- The used-proof set grows monotonically across any single mint request. -/
theorem mintStep_used_mono {m : Mint} {db db2 : MintDb} (h : MintStep m db db2) :
    ∀ p ∈ db.usedProofs, p ∈ db2.usedProofs := by
  intro p hp
  cases h with
  | split amount proofs msgs =>
    rcases Mint.split_state_cases m db amount proofs msgs with hc | hc <;> rw [hc]
    · exact hp
    · exact List.mem_append_left _ hp
  | melt pr proofs =>
    rcases Mint.melt_state_cases m db pr proofs with hc | hc <;> rw [hc]
    · exact hp
    · exact List.mem_append_left _ hp
  | mintTokens hash outputs =>
    rw [Mint.mintTokens_usedProofs]
    exact hp

/-- The used-proof set grows monotonically across any request sequence. -/
theorem mintReachable_used_mono {m : Mint} {db db2 : MintDb} (h : MintReachable m db db2) :
    ∀ p ∈ db.usedProofs, p ∈ db2.usedProofs := by
  induction h with
  | refl => exact fun p hp => hp
  | tail _ hstep ih => exact fun p hp => mintStep_used_mono hstep p (ih p hp)

/-- Inversion of a successful `split`: every guard passed, both slices were
signed in order, the signed amounts add up, and the inputs were recorded. -/
theorem Mint.split_ok_inv (m : Mint) (db : MintDb) (a : Nat) (ps : List Proof)
    (msgs : List BlindedMessage) (sndSigs fstSigs : List BlindedSignature) (db2 : MintDb)
    (h : m.split db a ps msgs = (Except.ok (sndSigs, fstSigs), db2)) :
    checkUsedProofs db ps = Except.ok () ∧
    a ≤ proofsTotal ps ∧
    (splitAmount (proofsTotal ps - a)).length ≤ msgs.length ∧
    m.createBlindedSignatures (msgs.take (splitAmount (proofsTotal ps - a)).length)
      = Except.ok fstSigs ∧
    m.createBlindedSignatures (msgs.drop (splitAmount (proofsTotal ps - a)).length)
      = Except.ok sndSigs ∧
    proofsTotal ps = (getAmount fstSigs + getAmount sndSigs) % 2 ^ 64 ∧
    db2 = db.addUsedProofs ps := by
  unfold Mint.split at h
  split at h
  · simp at h
  next u heq =>
    split at h
    next h1 => simp at h
    next h1 =>
      split at h
      next h2 => simp at h
      next h2 =>
        split at h
        · simp at h
        next firstSigs hf =>
          split at h
          · simp at h
          next secondSigs hs =>
            split at h
            next h3 => simp at h
            next h3 =>
              simp only [Prod.mk.injEq, Except.ok.injEq] at h
              obtain ⟨⟨hsnd, hfst⟩, hdb⟩ := h
              subst hsnd; subst hfst; subst hdb
              push_neg at h3
              refine ⟨?_, Nat.le_of_not_lt h1, Nat.le_of_not_lt h2, hf, hs, h3, rfl⟩
              cases u
              exact heq

/-- A successful `melt` records exactly the input proofs as used. -/
theorem Mint.melt_ok_state (m : Mint) (db : MintDb) (pr : String) (ps : List Proof)
    (r : Bool × String × List BlindedSignature) (db2 : MintDb)
    (h : m.melt db pr ps = (Except.ok r, db2)) : db2 = db.addUsedProofs ps := by
  unfold Mint.melt at h
  repeat' split at h
  all_goals simp_all

/-- A `split` whose proofs meet the used set fails with `ProofAlreadyUsed`
and leaves the database unchanged. -/
theorem Mint.split_rejects_used (m : Mint) (db : MintDb) (a : Nat) (ps : List Proof)
    (msgs : List BlindedMessage) (p : Proof)
    (hdb : p ∈ db.usedProofs) (hps : p ∈ ps) :
    ∃ msg, m.split db a ps msgs
      = (Except.error (CashuMintError.proofAlreadyUsed msg), db) := by
  obtain ⟨msg, hc⟩ := checkUsedProofs_hit db ps p hdb hps
  refine ⟨msg, ?_⟩
  unfold Mint.split
  rw [hc]

/-- A `melt` on a decodable invoice whose proofs meet the used set fails with
`ProofAlreadyUsed` and leaves the database unchanged. -/
theorem Mint.melt_rejects_used (m : Mint) (db : MintDb) (pr : String) (ps : List Proof)
    (p : Proof) (inv : LNInvoice)
    (hdec : m.lightning.decodeInvoice pr = Except.ok inv)
    (hdb : p ∈ db.usedProofs) (hps : p ∈ ps) :
    ∃ msg, m.melt db pr ps
      = (Except.error (CashuMintError.proofAlreadyUsed msg), db) := by
  obtain ⟨msg, hc⟩ := checkUsedProofs_hit db ps p hdb hps
  refine ⟨msg, ?_⟩
  unfold Mint.melt
  rw [hdec, hc]

/-- A `melt` whose proofs meet the used set never succeeds, whatever the
invoice. -/
theorem Mint.melt_used_never_ok (m : Mint) (db : MintDb) (pr : String) (ps : List Proof)
    (p : Proof) (hdb : p ∈ db.usedProofs) (hps : p ∈ ps) :
    ∀ r, (m.melt db pr ps).1 ≠ Except.ok r := by
  intro r h
  cases hdec : m.lightning.decodeInvoice pr with
  | error e =>
    unfold Mint.melt at h
    rw [hdec] at h
    simp at h
  | ok inv =>
    obtain ⟨msg, hc⟩ := checkUsedProofs_hit db ps p hdb hps
    unfold Mint.melt at h
    rw [hdec, hc] at h
    simp at h

/-- Rust `create_blinded_signatures` preserves the amounts and the order of its
blinded messages. -/
theorem Mint.createBlindedSignatures_amounts (m : Mint) :
    ∀ (msgs : List BlindedMessage) (sigs : List BlindedSignature),
      m.createBlindedSignatures msgs = Except.ok sigs →
      sigs.map (fun s => s.amount) = msgs.map (fun x => x.amount) := by
  intro msgs
  induction msgs with
  | nil =>
    intro sigs h
    simp [Mint.createBlindedSignatures] at h
    simp [h.symm]
  | cons msg rest ih =>
    intro sigs h
    cases hk : m.keyset.privateKeys msg.amount with
    | none => simp [Mint.createBlindedSignatures, hk] at h
    | some k =>
      cases hr : m.createBlindedSignatures rest with
      | error e => simp [Mint.createBlindedSignatures, hk, hr] at h
      | ok sigsRest =>
        simp [Mint.createBlindedSignatures, hk, hr] at h
        rw [h.symm]
        simp [ih sigsRest hr]

/-- When the double-spend check passes, the guards hold, both slices sign
successfully, and the signed amounts do not add up to the proof total,
`split` fails with `SplitAmountMismatch` and leaves the database unchanged. -/
theorem Mint.split_mismatch (m : Mint) (db : MintDb) (a : Nat) (ps : List Proof)
    (msgs : List BlindedMessage) (fstSigs sndSigs : List BlindedSignature)
    (hcheck : checkUsedProofs db ps = Except.ok ())
    (ha : a ≤ proofsTotal ps)
    (hlen : (splitAmount (proofsTotal ps - a)).length ≤ msgs.length)
    (hf : m.createBlindedSignatures (msgs.take (splitAmount (proofsTotal ps - a)).length)
      = Except.ok fstSigs)
    (hs : m.createBlindedSignatures (msgs.drop (splitAmount (proofsTotal ps - a)).length)
      = Except.ok sndSigs)
    (hne : proofsTotal ps ≠ (getAmount fstSigs + getAmount sndSigs) % 2 ^ 64) :
    m.split db a ps msgs
      = (Except.error (CashuMintError.splitAmountMismatch
          (mismatchMsg (proofsTotal ps) (getAmount fstSigs) (getAmount sndSigs))), db) := by
  unfold Mint.split
  rw [hcheck]
  simp only [if_neg (not_lt.mpr ha), if_neg (not_lt.mpr hlen), hf, hs, if_pos hne]

/-- Inserting into the ascending-by-amount sort adds the inserted amount to
the total. -/
theorem orderedInsertAmount_total (p : Proof) (l : List Proof) :
    proofsTotal (orderedInsertAmount p l) = p.amount + proofsTotal l := by
  induction l with
  | nil => simp [orderedInsertAmount, proofsTotal]
  | cons q rest ih =>
    by_cases hle : p.amount ≤ q.amount
    · simp [orderedInsertAmount, hle, proofsTotal]
    · simp [orderedInsertAmount, hle, proofsTotal] at ih ⊢
      omega

/-- The stable sort by amount preserves the total. -/
theorem sortByAmount_total (l : List Proof) : proofsTotal (sortByAmount l) = proofsTotal l := by
  induction l with
  | nil => rfl
  | cons p rest ih =>
    rw [sortByAmount, orderedInsertAmount_total, ih]
    simp [proofsTotal]

/-- Reversal preserves the total. -/
theorem proofsTotal_reverse (l : List Proof) : proofsTotal l.reverse = proofsTotal l := by
  simp [proofsTotal, List.sum_reverse]

/-- The selection loop keeps taking proofs until the running total covers
`amount`; if the pool covers the remainder, so does the selection. -/
theorem selectProofsLoop_total (amount : Nat) :
    ∀ (l : List Proof) (sel : Nat), amount ≤ sel + proofsTotal l →
      amount ≤ sel + proofsTotal (selectProofsLoop amount l sel) := by
  intro l
  induction l with
  | nil => intro sel h; simpa [selectProofsLoop] using h
  | cons p rest ih =>
    intro sel h
    by_cases hlt : sel < amount
    · simp only [selectProofsLoop, if_pos hlt]
      have hrec := ih (sel + p.amount) (by simp [proofsTotal] at h ⊢; omega)
      simp [proofsTotal] at hrec ⊢
      omega
    · simp only [selectProofsLoop, if_neg hlt]
      have hsel : amount ≤ sel := Nat.le_of_not_lt hlt
      simp [proofsTotal]
      omega

def lightningC3 : Lightning :=
  { isInvoicePaid := fun _ => Except.ok true
    createInvoice := fun _ => { paymentHash := "h3", paymentRequest := "pr3" }
    payInvoice := fun _ => Except.ok { paymentHash := "ph3" }
    decodeInvoice := fun _ =>
      Except.ok { amountMilliSatoshis := some 5000, paymentHash := "ph3" } }

/-- A mint whose Lightning backend decodes every invoice to 5000 msat. -/
def mintC3 : Mint :=
  { lightning := lightningC3, keyset := testKeyset }

def lightningC7 : Lightning :=
  { isInvoicePaid := fun _ => Except.ok true
    createInvoice := fun _ => { paymentHash := "h7", paymentRequest := "pr7" }
    payInvoice := fun pr => Except.error (CashuMintError.payInvoice pr)
    decodeInvoice := fun _ =>
      Except.ok { amountMilliSatoshis := some 1000, paymentHash := "ph7" } }

/-- A mint whose Lightning backend fails every payment attempt. -/
def mintC7 : Mint :=
  { lightning := lightningC7, keyset := testKeyset }

def msg3 : BlindedMessage :=
  { amount := 3, b := Point.hex "b3" }

def dbC9 : MintDb :=
  { usedProofs := [], pendingInvoices := [("h9", { amount := 8, paymentRequest := "pr9" })] }

def proof4 : Proof := { amount := 4, secret := "s4", c := Point.hex "c4", id := "k" }

def proof8 : Proof := { amount := 8, secret := "s8", c := Point.hex "c8", id := "k" }

def proof16 : Proof := { amount := 16, secret := "s16", c := Point.hex "c16", id := "k" }

def proof32 : Proof := { amount := 32, secret := "s32", c := Point.hex "c32", id := "k" }

/-- A localstore holding denominations 4, 8, 16, 32 (spec scenario 6). -/
def walletProofs : List Proof := [proof4, proof8, proof16, proof32]

/-- The signature `testMint` produces for `msg2`. -/
def sigB : BlindedSignature :=
  { id := some "TEST_PRIVATE_KEY/0/0/0/0"
    amount := 2
    c := Point.smul "TEST_PRIVATE_KEY/0/0/0/0#2" (Point.hex "b2") }

/-- A blinded message of amount `2^63` — the largest keyset denomination. -/
def msg63 : BlindedMessage :=
  { amount := 2 ^ 63, b := Point.hex "b63" }

/-- The signature `testMint` produces for `msg63`. -/
def sig63 : BlindedSignature :=
  { id := some "TEST_PRIVATE_KEY/0/0/0/0"
    amount := 2 ^ 63
    c := Point.smul ("TEST_PRIVATE_KEY/0/0/0/0#" ++ toString (2 ^ 63 : Nat)) (Point.hex "b63") }

def respUnpaid : PostMeltResponse := { paid := false, preimage := "", change := [] }

def clientC10 : Client := { postMeltTokens := fun _ _ _ => Except.ok respUnpaid }

def walletC10 : Wallet := { client := clientC10 }

/-- Claim C1: after a successful `split` or `melt` consumed a set of input
proofs, every subsequent `split` or `melt` request — after any further
sequence of mint requests — whose proofs contain one of those inputs fails
with `ProofAlreadyUsed`: a `split` unconditionally; a `melt` never succeeds
and, whenever its invoice decodes, fails with `ProofAlreadyUsed` (the
used-proof set grows monotonically and `check_used_proofs` rejects any
member). -/
theorem no_double_spend
    (m : Mint) (db db1 db2 : MintDb) (a : Nat) (proofs : List Proof)
    (msgs : List BlindedMessage) (r : List BlindedSignature × List BlindedSignature)
    (pr0 : String) (r0 : Bool × String × List BlindedSignature)
    (p : Proof) (a2 : Nat) (proofs2 : List Proof) (msgs2 : List BlindedMessage) (pr2 : String)
    (hconsume : m.split db a proofs msgs = (Except.ok r, db1) ∨
      m.melt db pr0 proofs = (Except.ok r0, db1))
    (hp : p ∈ proofs) (hreach : MintReachable m db1 db2) (hp2 : p ∈ proofs2) :
    (∃ msg, m.split db2 a2 proofs2 msgs2
        = (Except.error (CashuMintError.proofAlreadyUsed msg), db2)) ∧
    (∀ res, (m.melt db2 pr2 proofs2).1 ≠ Except.ok res) ∧
    (∀ inv, m.lightning.decodeInvoice pr2 = Except.ok inv →
      ∃ msg, m.melt db2 pr2 proofs2
          = (Except.error (CashuMintError.proofAlreadyUsed msg), db2)) := by
  have hdb1 : p ∈ db1.usedProofs := by
    rcases hconsume with h | h
    · obtain ⟨sndSigs, fstSigs⟩ := r
      have hinv := Mint.split_ok_inv m db a proofs msgs sndSigs fstSigs db1 h
      rw [hinv.2.2.2.2.2.2]
      exact List.mem_append_right _ hp
    · rw [Mint.melt_ok_state m db pr0 proofs r0 db1 h]
      exact List.mem_append_right _ hp
  have hdb2 : p ∈ db2.usedProofs := mintReachable_used_mono hreach p hdb1
  exact ⟨Mint.split_rejects_used m db2 a2 proofs2 msgs2 p hdb2 hp2,
    Mint.melt_used_never_ok m db2 pr2 proofs2 p hdb2 hp2,
    fun inv hinv => Mint.melt_rejects_used m db2 pr2 proofs2 p inv hinv hdb2 hp2⟩

/-- Witness for C1: a concrete successful split of `proofA`, after which a
second split spending `proofA` fails with `ProofAlreadyUsed`. -/
theorem no_double_spend_witness :
    ∃ msg, testMint.split (emptyDb.addUsedProofs [proofA]) 0 [proofA] [msg1]
      = (Except.error (CashuMintError.proofAlreadyUsed msg), emptyDb.addUsedProofs [proofA]) :=
  (no_double_spend testMint emptyDb (emptyDb.addUsedProofs [proofA])
    (emptyDb.addUsedProofs [proofA]) 0 [proofA] [msg1] ([], [sigA]) "pr" (true, "ph", [])
    proofA 0 [proofA] [msg1] "inv"
    (Or.inl rfl) (by decide) Relation.ReflTransGen.refl (by decide)).1

/-- Claim C2 counterexample (release-build `u64` wrap): splitting an empty
proof set (total 0) with two outputs of amount `2^63` succeeds — the wrapped
sums compare `0 = (0 + 0) % 2^64` — and the mint returns promises totalling
`2^64` for inputs totalling 0, so the conservation equation of the claim is
false at this accepted split (a debug build panics on the add overflow
instead of failing with `SplitAmountMismatch`). -/
theorem split_conservation_counterexample :
    testMint.split emptyDb 0 [] [msg63, msg63]
      = (Except.ok ([sig63, sig63], []), emptyDb.addUsedProofs []) ∧
    sigAmountsSum ([] : List BlindedSignature) + sigAmountsSum [sig63, sig63]
      ≠ proofsTotal [] :=
  ⟨rfl, by decide⟩

/-- Claim C2 (amended): for every split call that returns successfully in
which the `u64` sums of the returned batches do not overflow (their exact
total is below `2^64`), the amounts of the first batch plus the amounts of
the second batch equal the total amount of the input proofs; and whenever
the wrapped sums do not add up to the proof total, split fails with
`SplitAmountMismatch` and does not insert the proofs into the used set (the
database is returned unchanged). -/
theorem split_conservation
    (m : Mint) (db : MintDb) (a : Nat) (ps : List Proof) (msgs : List BlindedMessage)
    (fstSigs sndSigs : List BlindedSignature) :
    (∀ db2, m.split db a ps msgs = (Except.ok (sndSigs, fstSigs), db2) →
      sigAmountsSum fstSigs + sigAmountsSum sndSigs < 2 ^ 64 →
      sigAmountsSum fstSigs + sigAmountsSum sndSigs = proofsTotal ps) ∧
    (checkUsedProofs db ps = Except.ok () →
      a ≤ proofsTotal ps →
      (splitAmount (proofsTotal ps - a)).length ≤ msgs.length →
      m.createBlindedSignatures (msgs.take (splitAmount (proofsTotal ps - a)).length)
        = Except.ok fstSigs →
      m.createBlindedSignatures (msgs.drop (splitAmount (proofsTotal ps - a)).length)
        = Except.ok sndSigs →
      (getAmount fstSigs + getAmount sndSigs) % 2 ^ 64 ≠ proofsTotal ps →
      m.split db a ps msgs
        = (Except.error (CashuMintError.splitAmountMismatch
            (mismatchMsg (proofsTotal ps) (getAmount fstSigs) (getAmount sndSigs))), db)) := by
  constructor
  · intro db2 h hlt
    have hinv := (Mint.split_ok_inv m db a ps msgs sndSigs fstSigs db2 h).2.2.2.2.2.1
    rw [hinv]
    unfold sigAmountsSum at hlt
    unfold getAmount sigAmountsSum
    rw [← Nat.add_mod, Nat.mod_eq_of_lt hlt]
  · intro hcheck ha hlen hf hs hne
    exact Mint.split_mismatch m db a ps msgs fstSigs sndSigs hcheck ha hlen hf hs
      (fun he => hne he.symm)

/-- Witness for C2: a successful overflow-free split of `proofA` conserves
value (1 = 1), and proofs totalling 3 with outputs summing to 2 make split
fail with `SplitAmountMismatch`, leaving the database unchanged. -/
theorem split_conservation_witness :
    (sigAmountsSum [sigA] + sigAmountsSum ([] : List BlindedSignature)
        = proofsTotal [proofA]) ∧
    testMint.split emptyDb 1 [proofA, proofB] [msg1, msg1]
      = (Except.error (CashuMintError.splitAmountMismatch (mismatchMsg 3 1 1)), emptyDb) :=
  ⟨(split_conservation testMint emptyDb 0 [proofA] [msg1] [sigA] []).1
      (emptyDb.addUsedProofs [proofA]) rfl (by decide),
    (split_conservation testMint emptyDb 1 [proofA, proofB] [msg1, msg1] [sigA] [sigA]).2
      rfl (by decide) (by decide) rfl rfl (by decide)⟩

/-- Claim C3 (code bug): with an invoice of 5 sat (5000 msat) and unused
proofs totalling 2 sat, the spec requires failure with `InvoiceAmountTooLow`
(`amount_sat = 5 > P = 2`), but the source compares
`amount_msat < proofs_amount / 1000` (here `5000 < 0`, false) and proceeds
to pay the invoice. -/
theorem melt_amount_check_divergence :
    5000 / 1000 > proofsTotal [proofB] ∧
    (mintC3.melt emptyDb "inv" [proofB]).1 = Except.ok (true, "ph3", []) :=
  ⟨by decide, rfl⟩

/-- Claim C4 (code bug): a split request of 5 against proofs totalling 3
does not fail with `SplitAmountTooHigh` (no such check or error variant
exists in the source); the `u64` subtraction `sum_proofs - amount`
underflows, which is a panic in a debug build. -/
theorem split_amount_too_high_panics :
    proofsTotal [proofA, proofB] < 5 ∧
    (testMint.split emptyDb 5 [proofA, proofB] [msg1]).1
      = Except.error (CashuMintError.rustPanic "attempt to subtract with overflow") :=
  ⟨by decide, rfl⟩

/-- Claim C5 (code bug): with proofs totalling 3 and amount 1, the first
output slot must carry the amounts `split_amount(2) = [2]`, yet a request
whose first output carries amount 1 (and second amount 2) succeeds instead
of failing `SplitOutputsMalformed` — the source performs no output-shape
validation and has no such error variant (the `TODO check` comments at
mint.rs:92-94 mark the gap). -/
theorem split_outputs_not_validated :
    ([msg1, msg2].take (splitAmount (proofsTotal [proofA, proofB] - 1)).length).map
        (fun x => x.amount) ≠ splitAmount (proofsTotal [proofA, proofB] - 1) ∧
    testMint.split emptyDb 1 [proofA, proofB] [msg1, msg2]
      = (Except.ok ([sigB], [sigA]), emptyDb.addUsedProofs [proofA, proofB]) :=
  ⟨by decide, rfl⟩

/-- Claim C6: every successful split signs the first
`len(split_amount(S - amount))` blinded messages as the `fst` batch and the
remaining messages as the `snd` batch, each preserving the input order of
amounts, and returns the pair `(snd, fst)` — the second batch in the first
position. -/
theorem split_batches_order
    (m : Mint) (db : MintDb) (a : Nat) (ps : List Proof) (msgs : List BlindedMessage)
    (sndSigs fstSigs : List BlindedSignature) (db2 : MintDb)
    (h : m.split db a ps msgs = (Except.ok (sndSigs, fstSigs), db2)) :
    m.createBlindedSignatures (msgs.take (splitAmount (proofsTotal ps - a)).length)
      = Except.ok fstSigs ∧
    m.createBlindedSignatures (msgs.drop (splitAmount (proofsTotal ps - a)).length)
      = Except.ok sndSigs ∧
    fstSigs.map (fun s => s.amount)
      = (msgs.take (splitAmount (proofsTotal ps - a)).length).map (fun x => x.amount) ∧
    sndSigs.map (fun s => s.amount)
      = (msgs.drop (splitAmount (proofsTotal ps - a)).length).map (fun x => x.amount) := by
  obtain ⟨-, -, -, hf, hs, -, -⟩ := Mint.split_ok_inv m db a ps msgs sndSigs fstSigs db2 h
  exact ⟨hf, hs, Mint.createBlindedSignatures_amounts m _ _ hf,
    Mint.createBlindedSignatures_amounts m _ _ hs⟩

/-- Witness for C6: a concrete successful split of 3 into 2 (fst `[sigB]`)
and 1 (snd `[sigA]`) — returned as `([sigA], [sigB])`, second batch first. -/
theorem split_batches_order_witness :
    testMint.createBlindedSignatures
        ([msg2, msg1].take (splitAmount (proofsTotal [proofA, proofB] - 1)).length)
      = Except.ok [sigB] ∧
    testMint.createBlindedSignatures
        ([msg2, msg1].drop (splitAmount (proofsTotal [proofA, proofB] - 1)).length)
      = Except.ok [sigA] ∧
    [sigB].map (fun s => s.amount)
      = (([msg2, msg1].take (splitAmount (proofsTotal [proofA, proofB] - 1)).length)).map
          (fun x => x.amount) ∧
    [sigA].map (fun s => s.amount)
      = (([msg2, msg1].drop (splitAmount (proofsTotal [proofA, proofB] - 1)).length)).map
          (fun x => x.amount) :=
  split_batches_order testMint emptyDb 1 [proofA, proofB] [msg2, msg1] [sigA] [sigB]
    (emptyDb.addUsedProofs [proofA, proofB]) rfl

/-- Claim C7: `melt` inserts the input proofs into the used set before the
Lightning payment is attempted, so when `pay_invoice` fails the proofs are
already recorded as used in the returned database state. -/
theorem melt_consumes_before_pay
    (m : Mint) (db : MintDb) (pr : String) (ps : List Proof) (inv : LNInvoice)
    (msat : Nat) (e : CashuMintError)
    (hdec : m.lightning.decodeInvoice pr = Except.ok inv)
    (hcheck : checkUsedProofs db ps = Except.ok ())
    (hmsat : inv.amountMilliSatoshis = some msat)
    (hamount : ¬ msat < proofsTotal ps / 1000)
    (hpay : m.lightning.payInvoice pr = Except.error e) :
    m.melt db pr ps = (Except.error e, db.addUsedProofs ps) ∧
    ∀ p ∈ ps, p ∈ (m.melt db pr ps).2.usedProofs := by
  have heq : m.melt db pr ps = (Except.error e, db.addUsedProofs ps) := by
    unfold Mint.melt
    simp only [hdec, hcheck, hmsat, if_neg hamount, hpay]
  refine ⟨heq, fun p hp => ?_⟩
  rw [heq]
  exact List.mem_append_right _ hp

/-- Witness for C7: a mint whose Lightning backend rejects the payment; the
melt fails but `proofB` is nonetheless recorded in the used set. -/
theorem melt_consumes_before_pay_witness :
    mintC7.melt emptyDb "inv7" [proofB]
      = (Except.error (CashuMintError.payInvoice "inv7"), emptyDb.addUsedProofs [proofB]) ∧
    ∀ p ∈ [proofB], p ∈ (mintC7.melt emptyDb "inv7" [proofB]).2.usedProofs :=
  melt_consumes_before_pay mintC7 emptyDb "inv7" [proofB]
    { amountMilliSatoshis := some 1000, paymentHash := "ph7" } 1000
    (CashuMintError.payInvoice "inv7") rfl rfl rfl (by decide) rfl

/-- Claim C8: `get_proofs_for_amount(a)` returns the greedy largest-first
selection (pop from the largest end of the amount-ascending sort until the
running sum reaches `a`), whose total is at least `a`, whenever the balance
is at least `a`; and fails `NotEnoughTokens` whenever `a` exceeds the
balance. -/
theorem get_proofs_for_amount_correct (allProofs : List Proof) (amount : Nat) :
    (amount ≤ proofsTotal allProofs →
      getProofsForAmount allProofs amount
        = Except.ok (selectProofsLoop amount (sortByAmount allProofs).reverse 0) ∧
      amount ≤ proofsTotal (selectProofsLoop amount (sortByAmount allProofs).reverse 0)) ∧
    (proofsTotal allProofs < amount →
      getProofsForAmount allProofs amount = Except.error CashuWalletError.notEnoughTokens) := by
  constructor
  · intro hle
    constructor
    · unfold getProofsForAmount
      rw [if_neg (not_lt.mpr hle)]
    · have htot : amount ≤ 0 + proofsTotal ((sortByAmount allProofs).reverse) := by
        rw [proofsTotal_reverse, sortByAmount_total]
        omega
      have hsel := selectProofsLoop_total amount ((sortByAmount allProofs).reverse) 0 htot
      simpa using hsel
  · intro hgt
    unfold getProofsForAmount
    rw [if_pos hgt]

/-- Witness for C8: with denominations 4, 8, 16, 32 in the store, requesting
10 selects the single proof of 32 (spec scenario 6). -/
theorem get_proofs_for_amount_witness :
    (getProofsForAmount walletProofs 10
        = Except.ok (selectProofsLoop 10 (sortByAmount walletProofs).reverse 0) ∧
      10 ≤ proofsTotal (selectProofsLoop 10 (sortByAmount walletProofs).reverse 0)) ∧
    getProofsForAmount walletProofs 10 = Except.ok [proof32] :=
  ⟨(get_proofs_for_amount_correct walletProofs 10).1 (by decide), rfl⟩

/-- Claim C9 (code bug): a blinded message whose amount 3 is not a keyset
denomination makes `create_blinded_signatures` — and `mint_tokens`, which
calls it on a paid pending invoice — panic on `unwrap` (mint.rs:41,
`// FIXME unwrap`) instead of failing with an `UnknownDenomination` error
(no such variant exists in the source). -/
theorem unknown_denomination_panics :
    testMint.createBlindedSignatures [msg3]
      = Except.error (CashuMintError.rustPanic "called Option::unwrap on a None value") ∧
    (testMint.mintTokens dbC9 "h9" [msg3]).1
      = Except.error (CashuMintError.rustPanic "called Option::unwrap on a None value") :=
  ⟨rfl, rfl⟩

/-- Claim C10: whenever the mint client returns a melt response without a
transport error, `melt_token` deletes the melted proofs from the localstore,
with no condition on the `paid` field of the response. -/
theorem melt_token_deletes_unconditionally
    (w : Wallet) (store : List Proof) (pr : String) (invoiceAmount : Nat)
    (ps : List Proof) (resp : PostMeltResponse)
    (h : w.client.postMeltTokens ps pr [] = Except.ok resp) :
    w.meltToken store pr invoiceAmount ps = (Except.ok resp, deleteProofs store ps) ∧
    ∀ p ∈ ps, p ∉ deleteProofs store ps := by
  constructor
  · unfold Wallet.meltToken
    rw [h]
  · intro p hp hmem
    simp [deleteProofs, List.mem_filter] at hmem
    exact hmem.2 hp

/-- Witness for C10: a mint client answering `paid = false`; the consumed
proof is still deleted from the localstore. -/
theorem melt_token_deletes_witness :
    respUnpaid.paid = false ∧
    (walletC10.meltToken [proofA] "pr" 1 [proofA]
        = (Except.ok respUnpaid, deleteProofs [proofA] [proofA]) ∧
      ∀ p ∈ [proofA], p ∉ deleteProofs [proofA] [proofA]) :=
  ⟨rfl, melt_token_deletes_unconditionally walletC10 [proofA] "pr" 1 [proofA] respUnpaid rfl⟩
